import Mathlib

/-!
Verification of the change-detection monitor of a YouTube RSS backend.

The development shallowly embeds the relevant source functions:
  * `classifyVideo`            from src/video-classifier.ts
  * `deduplicateVideos`        from the scraper (YouTubeScraper.deduplicateVideos)
  * `httpGet`                  from src/http-client.ts (HttpClient.get retry loop)
  * `upsertVideo`              from the database service (DatabaseService.upsertVideo)
  * `cleanupOldVideos`         from the database service (DatabaseService.cleanupOldVideos)
  * `checkChannelStore`        from src/services/monitor.ts (YouTubeMonitor.checkChannel)
  * `cleanupEndedLives`        from src/services/monitor.ts

Machine-level details that do not affect the verified properties (HTTP headers,
SQL connection handling, console logging, timestamps of type TIMESTAMP) are
modelled by plain data: times are `Nat`, identifiers and titles are `String`.
-/

namespace RssApp

/-- Video types, the `type` column of the `videos` table:
`'video' | 'short' | 'live' | 'scheduled' | 'vod'`. -/
inductive VideoType where
  | video
  | short
  | live
  | scheduled
  | vod
deriving DecidableEq

/-- Feed categories returned by the feed aggregator (rss-parser). -/
inductive FeedType where
  | videos
  | shorts
  | lives
deriving DecidableEq

/-- The classification signals extracted from `ytInitialPlayerResponse`
(`YTPlayerResponse` in src/types.ts).  In TypeScript the boolean fields are
optional and only ever set to `true`; `undefined` is modelled as `false`.
`scheduledStartTime` is a date, modelled as a `Nat` timestamp. -/
structure YTPlayerResponse where
  isLive : Bool
  isLiveContent : Bool
  isUpcoming : Bool
  scheduledStartTime : Option Nat
  duration : Option Nat
deriving DecidableEq

/-- `SHORTS_MAX_DURATION` from src/video-classifier.ts. -/
def SHORTS_MAX_DURATION : Nat := 90

/-- `classifyVideo` from src/video-classifier.ts, a direct transcription of the
six-rule `if` chain. -/
def classifyVideo (props : YTPlayerResponse) (feedHint : Option FeedType) : VideoType :=
  if props.isUpcoming && props.scheduledStartTime.isSome then
    .scheduled
  else if props.isLive then
    .live
  else if props.isLiveContent then
    .vod
  else if props.duration.any (fun d => decide (d ≤ SHORTS_MAX_DURATION)) then
    .short
  else if feedHint = some .shorts then
    .short
  else
    .video

/-- `VideoInfo` from src/types.ts, the record the scraper produces per item. -/
structure VideoInfo where
  videoId : String
  title : String
  publishedAt : Nat
  thumbnailUrl : String
  type : VideoType
  duration : Option Nat
  scheduledStartTime : Option Nat
  isLive : Bool
  isLiveContent : Bool
  isUpcoming : Bool
deriving DecidableEq

/-- The `shouldReplace` condition inside `YouTubeScraper.deduplicateVideos`:
a disjunction of per-signal gains of the newcomer `v` over the kept record
`existing`. -/
def shouldReplace (existing v : VideoInfo) : Bool :=
  (v.isLive && !existing.isLive) ||
  (v.isLiveContent && !existing.isLiveContent) ||
  (v.isUpcoming && !existing.isUpcoming) ||
  (v.type = .vod && existing.type = .video) ||
  (v.type = .live && existing.type = .video) ||
  (v.type = .scheduled && existing.type = .video)

/-- Replacing the value stored under `v.videoId` in a JS `Map`, which keeps the
key at its original insertion position. -/
def updateAssoc (seen : List VideoInfo) (v : VideoInfo) : List VideoInfo :=
  seen.map (fun e => if e.videoId = v.videoId then v else e)

/-- One iteration of the `for` loop of `deduplicateVideos`. -/
def dedupStep (seen : List VideoInfo) (v : VideoInfo) : List VideoInfo :=
  match seen.find? (fun e => e.videoId = v.videoId) with
  | none => seen ++ [v]
  | some existing => if shouldReplace existing v then updateAssoc seen v else seen

/-- `YouTubeScraper.deduplicateVideos`: fold the stub list into a `Map` keyed
by `videoId` (modelled as a list in insertion order) and return its values. -/
def deduplicateVideos (videos : List VideoInfo) : List VideoInfo :=
  videos.foldl dedupStep []

/-! ### Fetch client (src/http-client.ts, `HttpClient.get`) -/

/-- The outcome of one `fetch` call, as discriminated by `HttpClient.get`:
a 2xx response with a body, a non-ok response with a status code (and the
optional `Retry-After` header in seconds), or a thrown network error /
timeout. -/
inductive FetchOutcome where
  | ok (body : Nat)
  | status (code : Nat) (retryAfter : Option Nat)
  | netError
deriving DecidableEq

/-- Errors `HttpClient.get` can surface to its caller. -/
inductive GetErr where
  | http (code : Nat)
  | network
  | requestFailed
deriving DecidableEq

/-- Final result of `HttpClient.get`. -/
inductive GetRes where
  | ok (body : Nat)
  | err (e : GetErr)
deriving DecidableEq

/-- Sleeps performed inside the retry loop, in order. -/
inductive SleepEv where
  | rateLimit (seconds : Nat)
  | backoff (ms : Nat)
deriving DecidableEq

/-- `getBackoffDelay` from src/http-client.ts:
`min(1000 * 2^attempt, 30000)`. -/
def getBackoffDelay (attempt : Nat) : Nat :=
  min (1000 * 2 ^ attempt) 30000

/-- Trace of one `HttpClient.get` call: the returned value, the number of
`fetch` attempts performed, and the sleeps taken inside the loop. -/
structure GetResult where
  result : GetRes
  fetches : Nat
  sleeps : List SleepEv
deriving DecidableEq

/-- The retry loop of `HttpClient.get`, transcribed from the source.  The
`script` gives the outcome of the n-th `fetch` performed.  `remaining` is
`maxRetries - attempt`, so the loop guard `attempt < maxRetries` is
`remaining > 0`; a 429 response sleeps `Retry-After` (default 60) seconds and
re-enters the loop via `continue`, which — like every other `continue`d arm —
passes through the `attempt++` of the `for` statement. -/
def getAux (maxRetries : Nat) (script : Nat → FetchOutcome) :
    Nat → Nat → Nat → Option GetErr → GetResult
  | 0, _, idx, lastError =>
    { result := .err (lastError.getD .requestFailed), fetches := idx, sleeps := [] }
  | remaining + 1, attempt, idx, lastError =>
    match script idx with
    | .ok b => { result := .ok b, fetches := idx + 1, sleeps := [] }
    | .status code retryAfter =>
      if code = 429 then
        let r := getAux maxRetries script remaining (attempt + 1) (idx + 1) lastError
        { r with sleeps := .rateLimit (retryAfter.getD 60) :: r.sleeps }
      else if code = 404 ∨ code = 403 then
        { result := .err (.http code), fetches := idx + 1, sleeps := [] }
      else if attempt < maxRetries - 1 then
        let r := getAux maxRetries script remaining (attempt + 1) (idx + 1) (some (.http code))
        { r with sleeps := .backoff (getBackoffDelay attempt) :: r.sleeps }
      else
        getAux maxRetries script remaining (attempt + 1) (idx + 1) (some (.http code))
    | .netError =>
      if attempt < maxRetries - 1 then
        let r := getAux maxRetries script remaining (attempt + 1) (idx + 1) (some .network)
        { r with sleeps := .backoff (getBackoffDelay attempt) :: r.sleeps }
      else
        getAux maxRetries script remaining (attempt + 1) (idx + 1) (some .network)

/-- `HttpClient.get` with the given `maxRetries` option, run against a script
of fetch outcomes. -/
def httpGet (maxRetries : Nat) (script : Nat → FetchOutcome) : GetResult :=
  getAux maxRetries script maxRetries 0 0 none

/-! ### Store (the database service, `DatabaseService`) -/

/-- A row of the `videos` table (`DBVideo` in the schema).  `is_live`,
`is_live_content`, `is_upcoming` and `bookmarked` are INTEGER 0/1 columns,
modelled as `Bool`. -/
structure DBVideo where
  video_id : String
  channel_id : String
  title : String
  thumbnail_url : String
  published_at : Nat
  type : VideoType
  duration : Option Nat
  scheduled_start_time : Option Nat
  is_live : Bool
  is_live_content : Bool
  is_upcoming : Bool
  bookmarked : Bool
deriving DecidableEq

/-- The event kinds recorded by `DatabaseService.upsertVideo`. -/
inductive EventType where
  | new_video
  | live_started
  | live_ended
  | scheduled_live
  | video_updated
deriving DecidableEq

/-- The `videos` table, a list of rows (unique `video_id` where stated). -/
abbrev Store := List DBVideo

/-- The event computation of `DatabaseService.upsertVideo`, transcribed from
the `if` chains over the previously stored row and the incoming `VideoInfo`. -/
def computeEvent (existing : Option DBVideo) (video : VideoInfo) : Option EventType :=
  match existing with
  | none =>
    if video.isLive then some .live_started
    else if video.isUpcoming then some .scheduled_live
    else some .new_video
  | some ex =>
    if !ex.is_live && video.isLive then some .live_started
    else if ex.is_live && !video.isLive then some .live_ended
    else if ex.type ≠ video.type ∨ ex.title ≠ video.title then some .video_updated
    else none

/-- The row written by the `INSERT ... ON CONFLICT(video_id) DO UPDATE` of
`upsertVideo`: a fresh insert takes every field from the `VideoInfo`
(`bookmarked` defaults to 0); the conflict branch updates only `title`,
`thumbnail_url`, `type`, `duration`, `scheduled_start_time`, `is_live`,
`is_live_content` and `is_upcoming`, leaving `channel_id`, `published_at` and
`bookmarked` untouched. -/
def applyUpsert (existing : Option DBVideo) (v : VideoInfo) (channelId : String) : DBVideo :=
  match existing with
  | none =>
    { video_id := v.videoId
      channel_id := channelId
      title := v.title
      thumbnail_url := v.thumbnailUrl
      published_at := v.publishedAt
      type := v.type
      duration := v.duration
      scheduled_start_time := v.scheduledStartTime
      is_live := v.isLive
      is_live_content := v.isLiveContent
      is_upcoming := v.isUpcoming
      bookmarked := false }
  | some ex =>
    { ex with
      title := v.title
      thumbnail_url := v.thumbnailUrl
      type := v.type
      duration := v.duration
      scheduled_start_time := v.scheduledStartTime
      is_live := v.isLive
      is_live_content := v.isLiveContent
      is_upcoming := v.isUpcoming }

/-- `DatabaseService.upsertVideo`: reads the existing row, writes the upserted
row, and returns the derived event. -/
def upsertVideo (store : Store) (v : VideoInfo) (channelId : String) :
    Store × Option EventType :=
  let existing := store.find? (fun r => r.video_id = v.videoId)
  let newRow := applyUpsert existing v channelId
  match existing with
  | none => (store ++ [newRow], computeEvent existing v)
  | some _ =>
    (store.map (fun r => if r.video_id = v.videoId then newRow else r),
     computeEvent existing v)

/-- `ROW_NUMBER() OVER (PARTITION BY channel_id ORDER BY published_at DESC)`
for a row, assuming distinct `published_at` within a channel (the SQL window
is deterministic exactly then): one plus the number of strictly newer rows of
the same channel. -/
def rowNumber (store : Store) (r : DBVideo) : Nat :=
  1 + (store.filter
    (fun x => x.channel_id = r.channel_id && r.published_at < x.published_at)).length

/-- `DatabaseService.cleanupOldVideos`: delete every row whose per-channel
recency rank exceeds `maxPerChannel` and which is not bookmarked. -/
def cleanupOldVideos (store : Store) (maxPerChannel : Nat) : Store :=
  store.filter (fun r => !(decide (maxPerChannel < rowNumber store r) && !r.bookmarked))

/-! ### Scraper feed scan (`YouTubeScraper.getChannelVideos`, classify off) -/

/-- An item stub parsed out of one RSS feed (id, title, published time,
thumbnail). -/
structure FeedStub where
  videoId : String
  title : String
  publishedAt : Nat
  thumbnailUrl : String
deriving DecidableEq

/-- `YouTubeScraper.getTypeFromFeed`. -/
def getTypeFromFeed : FeedType → VideoType
  | .shorts => .short
  | .lives => .vod
  | .videos => .video

/-- The `VideoInfo` built by `getChannelVideos` for a stub of feed `ft` when
per-item classification is disabled: `isLive: false`, `isUpcoming: false`,
`isLiveContent: feedType === 'lives'`, no duration, no scheduled start. -/
def stubToVideo (ft : FeedType) (s : FeedStub) : VideoInfo :=
  { videoId := s.videoId
    title := s.title
    publishedAt := s.publishedAt
    thumbnailUrl := s.thumbnailUrl
    type := getTypeFromFeed ft
    duration := none
    scheduledStartTime := none
    isLive := false
    isLiveContent := ft = .lives
    isUpcoming := false }

/-- `YouTubeScraper.getChannelVideos` with `classifyVideos: false` (the only
configuration the monitor uses): per feed, take at most `maxPerFeed` stubs,
convert each, concatenate in feed order, and deduplicate. -/
def getChannelVideosModel (feeds : List (FeedType × List FeedStub)) (maxPerFeed : Nat) :
    List VideoInfo :=
  deduplicateVideos
    ((feeds.map (fun p => (p.2.take maxPerFeed).map (stubToVideo p.1))).flatten)

/-! ### Monitor (src/services/monitor.ts, `YouTubeMonitor.checkChannel`) -/

/-- Prefix test on character lists. -/
def isPrefixOfChars : List Char → List Char → Bool
  | [], _ => true
  | _ :: _, [] => false
  | a :: as, b :: bs => a = b && isPrefixOfChars as bs

/-- Substring test on character lists. -/
def containsChars (pat : List Char) : List Char → Bool
  | [] => isPrefixOfChars pat []
  | c :: rest => isPrefixOfChars pat (c :: rest) || containsChars pat rest

/-- `title.toLowerCase().includes('#shorts')`, over the title's characters. -/
def titleHasShortsTag (t : String) : Bool :=
  containsChars ("#shorts".data) (t.data.map Char.toLower)

/-- The filter chain of `checkChannel` over a feed-scanned item (each failed
check is a `continue`): not a short by type, not shorter than 120s (the
source's `video.duration && video.duration < 120` is falsy at duration 0, so
a zero duration does not trigger the filter), not in the shorts-feed id set,
no `#shorts` title tag, not a VOD (`type === 'vod'` or `isLiveContent`), and
not live (`type === 'live'` or `isLive`). -/
def passesVideoFilters (shortIds : List String) (v : VideoInfo) : Bool :=
  !(v.type = .short) &&
  !(v.duration.any (fun d => decide (0 < d) && decide (d < 120))) &&
  !(shortIds.contains v.videoId) &&
  !(titleHasShortsTag v.title) &&
  !(v.type = .vod || v.isLiveContent) &&
  !(v.type = .live || v.isLive)

/-- One iteration of `checkChannel`'s per-video loop: a surviving item is
upserted only under the final `if (video.type === 'video')` guard; the store,
the emitted events and the list of items actually upserted are threaded. -/
def feedStep (channelId : String) (shortIds : List String)
    (acc : Store × List EventType × List VideoInfo) (v : VideoInfo) :
    Store × List EventType × List VideoInfo :=
  if passesVideoFilters shortIds v && v.type = .video then
    let u := upsertVideo acc.1 v channelId
    (u.1, acc.2.1 ++ u.2.toList, acc.2.2 ++ [v])
  else acc

/-- The feed-scan half of `checkChannel`: collect the shorts-feed id set, then
run the filtered upsert loop. -/
def processFeedVideos (store : Store) (channelId : String) (videos : List VideoInfo) :
    Store × List EventType × List VideoInfo :=
  let shortIds := (videos.filter (fun v => v.type = .short)).map (fun v => v.videoId)
  videos.foldl (feedStep channelId shortIds) (store, [], [])

/-- `YouTubeMonitor.cleanupEndedLives`: delete every stored row of the channel
with `is_live = 1` whose id differs from the current probe result (all of
them when the probe returned null).  The source reads the live rows of the
channel and deletes them one by one by unique `video_id`; over the table this
is the filter below. -/
def cleanupEndedLives (store : Store) (channelId : String) (currentLive : Option VideoInfo) :
    Store :=
  store.filter (fun r =>
    !(r.is_live && r.channel_id = channelId &&
      (match currentLive with
       | none => true
       | some l => r.video_id ≠ l.videoId)))

/-- The store effect of one `YouTubeMonitor.checkChannel` cycle, given the
feed-scan result `videos` and the live-probe result `liveNow` (the channel is
present, so the probe result — when any — is upserted first as in the source;
the feed loop runs next, and `cleanupEndedLives` last). -/
def checkChannelStore (store : Store) (channelId : String)
    (videos : List VideoInfo) (liveNow : Option VideoInfo) : Store :=
  let s1 := match liveNow with
    | none => store
    | some l => (upsertVideo store l channelId).1
  let s2 := (processFeedVideos s1 channelId videos).1
  cleanupEndedLives s2 channelId liveNow

/-! ### Spec-side definitions (for refinement comparison) -/

/-- Whether a `type` outranks plain `video` in the spec's preference order
(`recording`/`live`/`scheduled` outrank plain `video`). -/
def typeOutranksVideo (t : VideoType) : Bool :=
  t = .vod || t = .live || t = .scheduled

/-- Modelled from the spec: the ordered preference vector
live-now > was-recording > is-upcoming > type-specificity of a record. -/
def prefTuple (v : VideoInfo) : Bool × Bool × Bool × Bool :=
  (v.isLive, v.isLiveContent, v.isUpcoming, typeOutranksVideo v.type)

/-- Strict lexicographic comparison of two boolean 4-tuples, `true` on `false`
in the most significant differing position. -/
def boolLexGT : Bool × Bool × Bool × Bool → Bool × Bool × Bool × Bool → Bool
  | (a1, a2, a3, a4), (b1, b2, b3, b4) =>
    (a1 && !b1) ||
    (a1 = b1 && ((a2 && !b2) ||
      (a2 = b2 && ((a3 && !b3) ||
        (a3 = b3 && (a4 && !b4))))))

/-- Modelled from the spec: newcomer `v` strictly dominates the kept record
`e` under the ordered preference live-now > was-recording > is-upcoming >
type-specificity. -/
def strictlyDominates (v e : VideoInfo) : Bool :=
  boolLexGT (prefTuple v) (prefTuple e)

/-! ### Concrete inputs used by counterexamples and witnesses -/

/-- Fetch script: three rate-limit responses, then success. -/
def c3script : Nat → FetchOutcome :=
  fun i => if i < 3 then .status 429 none else .ok 7

/-- Fetch script family: `k` rate-limit responses with `Retry-After: ra`,
then success with `body`. -/
def script429 (k ra body : Nat) : Nat → FetchOutcome :=
  fun i => if i < k then .status 429 (some ra) else .ok body

/-- Fetch script: every attempt sees HTTP 404. -/
def s404 : Nat → FetchOutcome := fun _ => .status 404 none

/-- A record first seen as a currently-live item. -/
def dupA : VideoInfo :=
  { videoId := "x", title := "a", publishedAt := 0, thumbnailUrl := ""
    type := .live, duration := none, scheduledStartTime := none
    isLive := true, isLiveContent := false, isUpcoming := false }

/-- A newcomer for the same identifier carrying only the was-recording
signal. -/
def dupB : VideoInfo :=
  { videoId := "x", title := "b", publishedAt := 0, thumbnailUrl := ""
    type := .vod, duration := none, scheduledStartTime := none
    isLive := false, isLiveContent := true, isUpcoming := false }

/-- A stored row of channel `c` published at time `i`, bookmarked iff `bm`. -/
def mkRow (i : Nat) (bm : Bool) : DBVideo :=
  { video_id := toString i, channel_id := "c", title := "t", thumbnail_url := ""
    published_at := i, type := .video, duration := none
    scheduled_start_time := none, is_live := false, is_live_content := false
    is_upcoming := false, bookmarked := bm }

/-- Scenario D store: 17 rows of one channel published at 1..17, the two
newest (16 and 17) bookmarked, the other 15 not. -/
def c8store : Store := (List.range 17).map (fun i => mkRow (i + 1) (decide (15 ≤ i)))

/-- Classification signals of an upcoming broadcast with a scheduled start. -/
def props4 : YTPlayerResponse :=
  { isLive := false, isLiveContent := false, isUpcoming := true
    scheduledStartTime := some 5, duration := none }

/-- A plain feed video with no live/upcoming signals. -/
def v2w : VideoInfo :=
  { videoId := "w", title := "t", publishedAt := 1, thumbnailUrl := ""
    type := .video, duration := none, scheduledStartTime := none
    isLive := false, isLiveContent := false, isUpcoming := false }

/-- A stored bookmarked row. -/
def c9row : DBVideo :=
  { video_id := "w", channel_id := "c", title := "old", thumbnail_url := ""
    published_at := 1, type := .video, duration := none
    scheduled_start_time := none, is_live := false, is_live_content := false
    is_upcoming := false, bookmarked := true }

/-- The row produced by re-sighting `v2w` over `c9row`. -/
def c9newRow : DBVideo := applyUpsert (some c9row) v2w "c"

/-- Two stored rows of channel `c` both marked live (a corrupted state the
cycle must repair). -/
def w1store : Store :=
  [ { video_id := "l1", channel_id := "c", title := "a", thumbnail_url := ""
      published_at := 1, type := .live, duration := none
      scheduled_start_time := none, is_live := true, is_live_content := false
      is_upcoming := false, bookmarked := false },
    { video_id := "l2", channel_id := "c", title := "b", thumbnail_url := ""
      published_at := 2, type := .live, duration := none
      scheduled_start_time := none, is_live := true, is_live_content := false
      is_upcoming := false, bookmarked := false } ]

/-- The live-probe result in the witness scenario: a third, current live. -/
def w1live : VideoInfo :=
  { videoId := "l3", title := "now", publishedAt := 3, thumbnailUrl := ""
    type := .live, duration := none, scheduledStartTime := none
    isLive := true, isLiveContent := false, isUpcoming := false }

/-- A single feed stub in the uploads category. -/
def stub0 : FeedStub :=
  { videoId := "u1", title := "upload", publishedAt := 4, thumbnailUrl := "" }

/-- A one-feed aggregator result: just the uploads feed with one stub. -/
def feeds0 : List (FeedType × List FeedStub) := [(.videos, [stub0])]

/-! ## Lemmas about the deduplication merge -/

lemma updateAssoc_map_videoId (seen : List VideoInfo) (v : VideoInfo) :
    (updateAssoc seen v).map (fun e => e.videoId) = seen.map (fun e => e.videoId) := by
  induction seen with
  | nil => rfl
  | cons a t ih =>
    have hh : (if a.videoId = v.videoId then v else a).videoId = a.videoId := by
      by_cases h : a.videoId = v.videoId
      · rw [if_pos h]; exact h.symm
      · rw [if_neg h]
    simpa [updateAssoc, hh] using ih

lemma mem_updateAssoc {seen : List VideoInfo} {v x : VideoInfo}
    (h : x ∈ updateAssoc seen v) : x = v ∨ x ∈ seen := by
  unfold updateAssoc at h
  rcases List.mem_map.1 h with ⟨e, he, hx⟩
  by_cases hc : e.videoId = v.videoId
  · left; rw [← hx, if_pos hc]
  · right; rw [← hx, if_neg hc]; exact he

lemma dedupStep_eq_none {seen : List VideoInfo} {v : VideoInfo}
    (h : seen.find? (fun e => e.videoId = v.videoId) = none) :
    dedupStep seen v = seen ++ [v] := by
  unfold dedupStep; rw [h]

lemma dedupStep_eq_some {seen : List VideoInfo} {v ex : VideoInfo}
    (h : seen.find? (fun e => e.videoId = v.videoId) = some ex) :
    dedupStep seen v = if shouldReplace ex v then updateAssoc seen v else seen := by
  unfold dedupStep; rw [h]

lemma dedupStep_map_nodup {seen : List VideoInfo} (v : VideoInfo)
    (h : (seen.map (fun e => e.videoId)).Nodup) :
    ((dedupStep seen v).map (fun e => e.videoId)).Nodup := by
  cases hf : seen.find? (fun e => e.videoId = v.videoId) with
  | none =>
    have hnot : ∀ e ∈ seen, ¬ e.videoId = v.videoId := by
      intro e he
      have := List.find?_eq_none.1 hf e he
      simpa using this
    rw [dedupStep_eq_none hf, List.map_append, List.nodup_append]
    refine ⟨h, List.nodup_singleton _, ?_⟩
    intro a ha hb
    rcases List.mem_map.1 ha with ⟨e, he, rfl⟩
    simp only [List.map_cons, List.map_nil, List.mem_singleton] at hb
    exact hnot e he hb
  | some ex =>
    rw [dedupStep_eq_some hf]
    by_cases hr : shouldReplace ex v
    · rw [if_pos hr, updateAssoc_map_videoId]; exact h
    · rw [if_neg hr]; exact h

lemma foldl_dedupStep_nodup : ∀ (l acc : List VideoInfo),
    (acc.map (fun e => e.videoId)).Nodup →
    ((l.foldl dedupStep acc).map (fun e => e.videoId)).Nodup
  | [], _, h => h
  | v :: t, acc, h => foldl_dedupStep_nodup t (dedupStep acc v) (dedupStep_map_nodup v h)

lemma dedup_ids_nodup (l : List VideoInfo) :
    ((deduplicateVideos l).map (fun e => e.videoId)).Nodup :=
  foldl_dedupStep_nodup l [] (by simp)

lemma foldl_dedupStep_of_nodup : ∀ (l acc : List VideoInfo),
    (((acc ++ l).map (fun e => e.videoId)).Nodup) →
    l.foldl dedupStep acc = acc ++ l
  | [], acc, _ => by simp
  | v :: t, acc, h => by
    have h' := h
    rw [List.map_append, List.nodup_append] at h'
    obtain ⟨h1, h2, hdisj⟩ := h'
    have hfind : acc.find? (fun e => e.videoId = v.videoId) = none := by
      rw [List.find?_eq_none]
      intro e he hc
      have hc' : e.videoId = v.videoId := by simpa using hc
      have hmem : e.videoId ∈ acc.map (fun e => e.videoId) :=
        List.mem_map.2 ⟨e, he, rfl⟩
      have hmem' : e.videoId ∈ (v :: t).map (fun e => e.videoId) := by
        simp [hc']
      exact hdisj hmem hmem'
    rw [List.foldl_cons, dedupStep_eq_none hfind,
      foldl_dedupStep_of_nodup t (acc ++ [v]) (by simpa using h)]
    simp

lemma mem_foldl_dedupStep : ∀ (l acc : List VideoInfo) (x : VideoInfo),
    x ∈ l.foldl dedupStep acc → x ∈ acc ∨ x ∈ l
  | [], _, _, h => .inl h
  | v :: t, acc, x, h => by
    rcases mem_foldl_dedupStep t (dedupStep acc v) x h with h' | h'
    · cases hf : acc.find? (fun e => e.videoId = v.videoId) with
      | none =>
        rw [dedupStep_eq_none hf] at h'
        rcases List.mem_append.1 h' with h'' | h''
        · exact .inl h''
        · simp only [List.mem_singleton] at h''
          exact .inr (by simp [h''])
      | some ex =>
        rw [dedupStep_eq_some hf] at h'
        by_cases hr : shouldReplace ex v
        · rw [if_pos hr] at h'
          rcases mem_updateAssoc h' with rfl | h''
          · exact .inr (by simp)
          · exact .inl h''
        · rw [if_neg hr] at h'
          exact .inl h'
    · exact .inr (List.mem_cons_of_mem _ h')

lemma mem_dedup {l : List VideoInfo} {x : VideoInfo}
    (h : x ∈ deduplicateVideos l) : x ∈ l := by
  rcases mem_foldl_dedupStep l [] x h with h' | h'
  · simp at h'
  · exact h'

/-! ## C5 and C6: the deduplication merge -/

/-- C5 (counterexample): on `[dupA, dupB]` — a live record followed by a
was-recording newcomer with the same identifier — `deduplicateVideos` keeps
the newcomer `dupB`, although `dupB` does not strictly dominate `dupA` under
the spec's ordered preference (it loses on the most significant live-now
coordinate), so the kept record is not the first-seen one the claim
demands. -/
theorem dedup_preference_counterexample :
    deduplicateVideos [dupA, dupB] = [dupB] ∧
    strictlyDominates dupB dupA = false ∧
    deduplicateVideos [dupA, dupB] ≠ [dupA] := by
  refine ⟨by decide, by decide, by decide⟩

/-- C5 (amended): `deduplicateVideos` keeps exactly one record per identifier,
and the replacement rule is the disjunction of per-signal gains: the newcomer
replaces the kept record iff the newcomer is live-now and the kept record is
not, or carries was-recording and the kept record does not, or carries
is-upcoming and the kept record does not, or has type `vod`/`live`/`scheduled`
while the kept record's type is plain `video`; when no clause fires the
first-seen record is kept. -/
theorem dedup_replacement_rule (a b : VideoInfo) (hid : a.videoId = b.videoId) :
    deduplicateVideos [a, b] = [if shouldReplace a b then b else a] ∧
    ∀ l : List VideoInfo, ((deduplicateVideos l).map (fun e => e.videoId)).Nodup := by
  constructor
  · have hfind : [a].find? (fun e => e.videoId = b.videoId) = some a := by
      simp [List.find?, hid]
    have hA : deduplicateVideos [a, b] = dedupStep [a] b := by
      simp [deduplicateVideos, dedupStep]
    rw [hA, dedupStep_eq_some hfind]
    by_cases hr : shouldReplace a b
    · rw [if_pos hr, if_pos hr]
      simp [updateAssoc, hid]
    · rw [if_neg hr, if_neg hr]
  · exact dedup_ids_nodup

/-- C5 witness: the amended replacement rule applied to the concrete pair
`dupA`, `dupB`, where the was-recording gain fires. -/
theorem dedup_replacement_rule_witness :
    deduplicateVideos [dupA, dupB] = [if shouldReplace dupA dupB then dupB else dupA] :=
  (dedup_replacement_rule dupA dupB (by decide)).1

/-- C6: the deduplication merge is idempotent — applying `deduplicateVideos`
to its own output returns the same records in the same order. -/
theorem dedup_idempotent (l : List VideoInfo) :
    deduplicateVideos (deduplicateVideos l) = deduplicateVideos l := by
  have h := dedup_ids_nodup l
  have h2 := foldl_dedupStep_of_nodup (deduplicateVideos l) [] (by simpa using h)
  simpa [deduplicateVideos] using h2

/-! ## C4: the video-type classifier -/

/-- C4: `classifyVideo` is a total function of the signal tuple and the feed
hint, and its six rules apply first-match-wins exactly as listed: upcoming
with a scheduled start yields `scheduled`; else live-now yields `live`; else
was-live-recording yields `vod`; else a present duration of at most 90 seconds
yields `short`; else a shorts-feed origin yields `short`; else `video`. -/
theorem classifyVideo_priority_rules (props : YTPlayerResponse) (hint : Option FeedType) :
    ((props.isUpcoming && props.scheduledStartTime.isSome) = true →
      classifyVideo props hint = .scheduled) ∧
    ((props.isUpcoming && props.scheduledStartTime.isSome) = false →
      props.isLive = true → classifyVideo props hint = .live) ∧
    ((props.isUpcoming && props.scheduledStartTime.isSome) = false →
      props.isLive = false → props.isLiveContent = true →
      classifyVideo props hint = .vod) ∧
    ((props.isUpcoming && props.scheduledStartTime.isSome) = false →
      props.isLive = false → props.isLiveContent = false →
      props.duration.any (fun d => decide (d ≤ SHORTS_MAX_DURATION)) = true →
      classifyVideo props hint = .short) ∧
    ((props.isUpcoming && props.scheduledStartTime.isSome) = false →
      props.isLive = false → props.isLiveContent = false →
      props.duration.any (fun d => decide (d ≤ SHORTS_MAX_DURATION)) = false →
      hint = some .shorts → classifyVideo props hint = .short) ∧
    ((props.isUpcoming && props.scheduledStartTime.isSome) = false →
      props.isLive = false → props.isLiveContent = false →
      props.duration.any (fun d => decide (d ≤ SHORTS_MAX_DURATION)) = false →
      hint ≠ some .shorts → classifyVideo props hint = .video) := by
  refine ⟨?_, ?_, ?_, ?_, ?_, ?_⟩ <;>
    intros <;> simp_all [classifyVideo]

/-- C4 witness: the first rule fires on an upcoming broadcast with a scheduled
start time. -/
theorem classifyVideo_priority_rules_witness :
    classifyVideo props4 none = .scheduled :=
  (classifyVideo_priority_rules props4 none).1 (by decide)

/-! ## C8: per-channel retention cleanup -/

/-- C8 (counterexample): in a channel holding 15 unbookmarked and 2 bookmarked
items where the bookmarked items are the two newest, `cleanupOldVideos` with
`maxPerChannel = 10` deletes 7 unbookmarked items, not the 5 the claim
predicts — bookmarked rows occupy two of the protected top-10 recency
ranks. Bookmarked rows do survive. -/
theorem cleanup_retention_counterexample :
    (c8store.filter (fun r => !r.bookmarked)).length = 15 ∧
    (c8store.filter (fun r => r.bookmarked)).length = 2 ∧
    c8store.length - (cleanupOldVideos c8store 10).length = 7 ∧
    ((cleanupOldVideos c8store 10).filter (fun r => r.bookmarked)).length = 2 ∧
    c8store.length - (cleanupOldVideos c8store 10).length ≠ 5 := by
  refine ⟨by decide, by decide, by decide, by decide, by decide⟩

/-- C8 (amended): `cleanupOldVideos` keeps exactly the rows that are
bookmarked or whose per-channel recency rank — computed over all rows of the
channel, bookmarked rows included — is within `maxPerChannel`; equivalently it
deletes exactly the unbookmarked rows with more than `maxPerChannel` strictly
newer rows in the same channel, and never deletes a bookmarked row.  In the
15-unbookmarked + 2-bookmarked scenario the number deleted is therefore 5
only when both bookmarked rows rank outside the newest 10, and otherwise 6
or 7. -/
theorem cleanupOldVideos_characterization (store : Store) (maxPerChannel : Nat)
    (r : DBVideo) :
    r ∈ cleanupOldVideos store maxPerChannel ↔
      r ∈ store ∧ (r.bookmarked = true ∨ rowNumber store r ≤ maxPerChannel) := by
  unfold cleanupOldVideos
  rw [List.mem_filter]
  constructor
  · rintro ⟨hmem, hcond⟩
    refine ⟨hmem, ?_⟩
    cases hb : r.bookmarked with
    | true => exact .inl rfl
    | false =>
      right
      by_contra hgt
      simp [hb, Nat.lt_of_not_le hgt] at hcond
  · rintro ⟨hmem, hcond⟩
    refine ⟨hmem, ?_⟩
    rcases hcond with hb | hle
    · simp [hb]
    · simp [Nat.not_lt_of_le hle]

/-! ## C3 and C7: the fetch client retry loop -/

lemma getAux_script429 (mr ra body : Nat) :
    ∀ rem k idx attempt : Nat,
      (rem ≤ k →
        (getAux mr (script429 (idx + k) ra body) rem attempt idx none).result
          = .err .requestFailed) ∧
      (k < rem →
        (getAux mr (script429 (idx + k) ra body) rem attempt idx none).result
          = .ok body) := by
  intro rem
  induction rem with
  | zero =>
    intro k idx attempt
    exact ⟨fun _ => rfl, fun h => absurd h (Nat.not_lt_zero k)⟩
  | succ rem ih =>
    intro k idx attempt
    cases k with
    | zero =>
      have hs : script429 idx ra body idx = .ok body := by
        unfold script429
        rw [if_neg]
        omega
      refine ⟨fun h => absurd h (by omega), fun _ => ?_⟩
      simp [getAux, hs]
    | succ k' =>
      have hs : script429 (idx + (k' + 1)) ra body idx = .status 429 (some ra) := by
        unfold script429
        rw [if_pos]
        omega
      have hK : idx + (k' + 1) = (idx + 1) + k' := by omega
      constructor
      · intro h
        have hrec := (ih k' (idx + 1) (attempt + 1)).1 (by omega)
        simp only [getAux, hs]
        rw [hK]
        simpa using hrec
      · intro h
        have hrec := (ih k' (idx + 1) (attempt + 1)).2 (by omega)
        simp only [getAux, hs]
        rw [hK]
        simpa using hrec

/-- C3 (counterexample): with `maxRetries = 3`, three 429 responses followed
by a success do not return the success payload — each 429 passes through the
`for` loop's `attempt++`, so the run exhausts the attempt counter and `get`
throws the generic request failure. -/
theorem rate_limit_counterexample :
    (httpGet 3 c3script).result = .err .requestFailed ∧
    (httpGet 3 c3script).result ≠ .ok 7 ∧
    (httpGet 3 c3script).sleeps = [.rateLimit 60, .rateLimit 60, .rateLimit 60] := by
  refine ⟨by decide, by decide, by decide⟩

/-- C3 (amended): a 429 response does consume a retry-count slot — a run of
`k` rate-limited responses followed by a success returns the success payload
exactly when `k` is below the configured maximum attempt count, and a run at
least as long as that count fails with the generic request failure. -/
theorem rate_limit_consumes_attempts (mr k ra body : Nat) :
    (k < mr → (httpGet mr (script429 k ra body)).result = .ok body) ∧
    (mr ≤ k → (httpGet mr (script429 k ra body)).result = .err .requestFailed) := by
  have h := getAux_script429 mr ra body mr k 0 0
  constructor
  · intro hk
    have := h.2 hk
    simpa [httpGet] using this
  · intro hk
    have := h.1 hk
    simpa [httpGet] using this

/-- C3 witness: two 429 responses then success, under `maxRetries = 3`,
return the payload. -/
theorem rate_limit_consumes_attempts_witness :
    (httpGet 3 (script429 2 60 7)).result = .ok 7 :=
  (rate_limit_consumes_attempts 3 2 60 7).1 (by decide)

/-- C7: a request whose first response is HTTP 404 or 403 fails immediately:
`get` surfaces the HTTP error after exactly one fetch attempt, with no
backoff (or rate-limit) sleep and no further attempt. -/
theorem get_nonretryable_single_attempt (mr : Nat) (script : Nat → FetchOutcome)
    (c : Nat) (ra : Option Nat) (hmr : 1 ≤ mr)
    (h0 : script 0 = .status c ra) (hc : c = 404 ∨ c = 403) :
    httpGet mr script = { result := .err (.http c), fetches := 1, sleeps := [] } := by
  obtain ⟨m, rfl⟩ : ∃ m, mr = m + 1 := ⟨mr - 1, by omega⟩
  rcases hc with rfl | rfl <;> simp [httpGet, getAux, h0]

/-- C7 witness: a 404 on the first attempt under `maxRetries = 3`. -/
theorem get_nonretryable_single_attempt_witness :
    httpGet 3 s404 = { result := .err (.http 404), fetches := 1, sleeps := [] } :=
  get_nonretryable_single_attempt 3 s404 404 none (by decide) (by decide) (Or.inl rfl)

/-! ## C2 and C9: the upsert -/

lemma upsertVideo_snd (store : Store) (v : VideoInfo) (cid : String) :
    (upsertVideo store v cid).2
      = computeEvent (store.find? (fun r => r.video_id = v.videoId)) v := by
  unfold upsertVideo
  cases hf : store.find? (fun r => r.video_id = v.videoId) <;> simp [hf]

lemma upsertVideo_fst_some {store : Store} {v : VideoInfo} {cid : String} {ex : DBVideo}
    (hf : store.find? (fun x => x.video_id = v.videoId) = some ex) :
    (upsertVideo store v cid).1
      = store.map (fun x =>
          if x.video_id = v.videoId then applyUpsert (some ex) v cid else x) := by
  unfold upsertVideo
  simp [hf]

/-- C2: per upsert, at most one event is derived (the return type is a single
optional event), and it is exactly the transition table's entry over the
previously persisted row and the newly observed signals: absent + live-now →
`live_started`; absent + upcoming (not live) → `scheduled_live`; absent +
neither → `new_video`; stored not-live → observed live → `live_started`;
stored live → observed not-live → `live_ended`; unchanged live flag with a
differing type or title → `video_updated`; otherwise no event. -/
theorem upsertVideo_event_table (store : Store) (v : VideoInfo) (cid : String) :
    (store.find? (fun r => r.video_id = v.videoId) = none → v.isLive = true →
      (upsertVideo store v cid).2 = some .live_started) ∧
    (store.find? (fun r => r.video_id = v.videoId) = none → v.isLive = false →
      v.isUpcoming = true → (upsertVideo store v cid).2 = some .scheduled_live) ∧
    (store.find? (fun r => r.video_id = v.videoId) = none → v.isLive = false →
      v.isUpcoming = false → (upsertVideo store v cid).2 = some .new_video) ∧
    (∀ ex, store.find? (fun r => r.video_id = v.videoId) = some ex →
      ex.is_live = false → v.isLive = true →
      (upsertVideo store v cid).2 = some .live_started) ∧
    (∀ ex, store.find? (fun r => r.video_id = v.videoId) = some ex →
      ex.is_live = true → v.isLive = false →
      (upsertVideo store v cid).2 = some .live_ended) ∧
    (∀ ex, store.find? (fun r => r.video_id = v.videoId) = some ex →
      ex.is_live = v.isLive → (ex.type ≠ v.type ∨ ex.title ≠ v.title) →
      (upsertVideo store v cid).2 = some .video_updated) ∧
    (∀ ex, store.find? (fun r => r.video_id = v.videoId) = some ex →
      ex.is_live = v.isLive → ex.type = v.type → ex.title = v.title →
      (upsertVideo store v cid).2 = none) := by
  rw [upsertVideo_snd]
  refine ⟨?_, ?_, ?_, ?_, ?_, ?_, ?_⟩
  · intro hf hl
    rw [hf]
    simp [computeEvent, hl]
  · intro hf hl hu
    rw [hf]
    simp [computeEvent, hl, hu]
  · intro hf hl hu
    rw [hf]
    simp [computeEvent, hl, hu]
  · intro ex hf he hl
    rw [hf]
    simp [computeEvent, he, hl]
  · intro ex hf he hl
    rw [hf]
    simp [computeEvent, he, hl]
  · intro ex hf he hd
    rw [hf]
    cases hb : v.isLive with
    | true => rw [hb] at he; simp [computeEvent, he, hb, hd]
    | false => rw [hb] at he; simp [computeEvent, he, hb, hd]
  · intro ex hf he ht hti
    rw [hf]
    cases hb : v.isLive with
    | true => rw [hb] at he; simp [computeEvent, he, hb, ht, hti]
    | false => rw [hb] at he; simp [computeEvent, he, hb, ht, hti]

/-- C2 witness: a first-sighted plain video yields exactly `new_video`. -/
theorem upsertVideo_event_table_witness :
    (upsertVideo [] v2w "c").2 = some .new_video :=
  (upsertVideo_event_table [] v2w "c").2.2.1 (by decide) (by decide) (by decide)

lemma find?_eq_self_of_nodup {store : Store} {r : DBVideo} {vid : String}
    (hn : (store.map (fun x => x.video_id)).Nodup) (hr : r ∈ store)
    (hid : r.video_id = vid) :
    store.find? (fun x => x.video_id = vid) = some r := by
  induction store with
  | nil => cases hr
  | cons a t ih =>
    rw [List.map_cons, List.nodup_cons] at hn
    obtain ⟨hna, hnt⟩ := hn
    rcases List.mem_cons.1 hr with rfl | hrt
    · rw [List.find?_cons_of_pos]
      simp [hid]
    · have hne : ¬ a.video_id = vid := by
        intro h
        apply hna
        rw [h, ← hid]
        exact List.mem_map.2 ⟨r, hrt, rfl⟩
      rw [List.find?_cons_of_neg]
      · exact ih hnt hrt
      · simp [hne]

/-- C9: re-sighting an item through `upsertVideo` never changes its stored
bookmark flag — the conflict branch of the SQL updates only scraped columns,
so the updated row keeps the previous row's `bookmarked` value whatever the
incoming scraped fields are. -/
theorem upsert_preserves_bookmark (store : Store) (v : VideoInfo) (cid : String)
    (r : DBVideo) (hn : (store.map (fun x => x.video_id)).Nodup)
    (hr : r ∈ store) (hid : r.video_id = v.videoId) :
    ∀ x ∈ (upsertVideo store v cid).1, x.video_id = v.videoId →
      x.bookmarked = r.bookmarked := by
  have hf := find?_eq_self_of_nodup hn hr hid
  intro x hx hxid
  rw [upsertVideo_fst_some hf] at hx
  rcases List.mem_map.1 hx with ⟨y, hy, hxy⟩
  by_cases hc : y.video_id = v.videoId
  · rw [if_pos hc] at hxy
    rw [← hxy]
    simp [applyUpsert]
  · rw [if_neg hc] at hxy
    rw [← hxy] at hxid
    exact absurd hxid hc

/-- C9 witness: re-sighting scraped data over the bookmarked row `c9row`
leaves the row bookmarked. -/
theorem upsert_preserves_bookmark_witness :
    c9newRow.bookmarked = c9row.bookmarked :=
  upsert_preserves_bookmark [c9row] v2w "c" c9row (by decide) (by decide) (by decide)
    c9newRow (by decide) (by decide)

/-! ## C10: the monitor's feed-scan filter -/

lemma foldl_feedStep_upserted (cid : String) (sids : List String) :
    ∀ (videos : List VideoInfo) (acc : Store × List EventType × List VideoInfo),
      ∀ v ∈ (videos.foldl (feedStep cid sids) acc).2.2,
        v ∈ acc.2.2 ∨ (passesVideoFilters sids v = true ∧ v.type = .video)
  | [], _, v, hv => .inl hv
  | w :: t, acc, v, hv => by
    rcases foldl_feedStep_upserted cid sids t (feedStep cid sids acc w) v hv with h | h
    · unfold feedStep at h
      by_cases hg : (passesVideoFilters sids w && decide (w.type = VideoType.video)) = true
      · rw [if_pos hg] at h
        rcases List.mem_append.1 h with h' | h'
        · exact .inl h'
        · simp only [List.mem_singleton] at h'
          subst h'
          right
          have hg' := hg
          rw [Bool.and_eq_true] at hg'
          exact ⟨hg'.1, by simpa using hg'.2⟩
      · rw [if_neg hg] at h
        exact .inl h
    · exact .inr h

lemma foldl_feedStep_events (cid : String) (sids : List String) :
    ∀ (videos : List VideoInfo) (acc : Store × List EventType × List VideoInfo),
      ∀ e ∈ (videos.foldl (feedStep cid sids) acc).2.1,
        e ∈ acc.2.1 ∨ ∃ (v : VideoInfo) (ex : Option DBVideo),
          v ∈ videos ∧ passesVideoFilters sids v = true ∧ v.type = .video ∧
          computeEvent ex v = some e
  | [], _, _, he => .inl he
  | w :: t, acc, e, he => by
    rcases foldl_feedStep_events cid sids t (feedStep cid sids acc w) e he with h | h
    · unfold feedStep at h
      by_cases hg : (passesVideoFilters sids w && decide (w.type = VideoType.video)) = true
      · rw [if_pos hg] at h
        rcases List.mem_append.1 h with h' | h'
        · exact .inl h'
        · right
          have hg' := hg
          rw [Bool.and_eq_true] at hg'
          refine ⟨w, acc.1.find? (fun r => r.video_id = w.videoId), List.mem_cons_self _ _,
            hg'.1, by simpa using hg'.2, ?_⟩
          rw [← upsertVideo_snd acc.1 w cid]
          cases hu : (upsertVideo acc.1 w cid).2 with
          | none => rw [hu] at h'; simp at h'
          | some e' =>
            rw [hu] at h'
            simp only [Option.toList_some, List.mem_singleton] at h'
            rw [h']
      · rw [if_neg hg] at h
        exact .inl h
    · rcases h with ⟨v, ex, hv, h1, h2, h3⟩
      exact .inr ⟨v, ex, List.mem_cons_of_mem _ hv, h1, h2, h3⟩

lemma computeEvent_none_eq (v : VideoInfo) :
    computeEvent none v =
      (if v.isLive then some .live_started
       else if v.isUpcoming then some .scheduled_live
       else some .new_video) := rfl

lemma computeEvent_some_eq (e : DBVideo) (v : VideoInfo) :
    computeEvent (some e) v =
      (if !e.is_live && v.isLive then some .live_started
       else if e.is_live && !v.isLive then some .live_ended
       else if e.type ≠ v.type ∨ e.title ≠ v.title then some .video_updated
       else none) := rfl

lemma computeEvent_ne_scheduled {ex : Option DBVideo} {v : VideoInfo}
    (hUp : v.isUpcoming = false) : computeEvent ex v ≠ some .scheduled_live := by
  cases ex with
  | none =>
    rw [computeEvent_none_eq]
    by_cases hl : v.isLive = true
    · simp [hl]
    · simp [Bool.of_not_eq_true hl, hUp]
  | some e =>
    rw [computeEvent_some_eq]
    split_ifs <;> simp

lemma getChannelVideosModel_isUpcoming (feeds : List (FeedType × List FeedStub)) (n : Nat) :
    ∀ v ∈ getChannelVideosModel feeds n, v.isUpcoming = false := by
  intro v hv
  have hv' := mem_dedup hv
  rcases List.mem_flatten.1 hv' with ⟨chunk, hchunk, hvc⟩
  rcases List.mem_map.1 hchunk with ⟨p, _, rfl⟩
  rcases List.mem_map.1 hvc with ⟨s, _, rfl⟩
  rfl

/-- C10: in `checkChannel`'s feed loop, an item from the feed scan is upserted
only when its computed type is exactly `video`; consequently feed-scanned
items of any other type (in particular type `scheduled`) produce no upsert and
no event, and — since the feed scan the monitor runs (classification off)
never marks an item `is-upcoming` — no `scheduled_live` event can arise from
a feed-scanned item. -/
theorem feed_scan_upserts_only_plain_videos (store : Store) (cid : String)
    (feeds : List (FeedType × List FeedStub)) (n : Nat) :
    (∀ v ∈ (processFeedVideos store cid (getChannelVideosModel feeds n)).2.2,
        v.type = .video) ∧
    EventType.scheduled_live ∉
      (processFeedVideos store cid (getChannelVideosModel feeds n)).2.1 := by
  constructor
  · intro v hv
    unfold processFeedVideos at hv
    rcases foldl_feedStep_upserted cid _ _ _ v hv with h | h
    · simp at h
    · exact h.2
  · intro hmem
    unfold processFeedVideos at hmem
    rcases foldl_feedStep_events cid _ _ _ _ hmem with h | h
    · simp at h
    · rcases h with ⟨v, ex, hv, _, _, hev⟩
      exact computeEvent_ne_scheduled (getChannelVideosModel_isUpcoming feeds n v hv) hev

/-- C10 witness: a single uploads-feed stub is upserted, and its type is
`video`. -/
theorem feed_scan_upserts_only_plain_videos_witness :
    (stubToVideo .videos stub0).type = .video :=
  (feed_scan_upserts_only_plain_videos [] "c" feeds0 5).1
    (stubToVideo .videos stub0) (by decide)

/-! ## C1: at most one live item per channel after a cycle -/

lemma upsertVideo_fst_none {store : Store} {v : VideoInfo} {cid : String}
    (hf : store.find? (fun x => x.video_id = v.videoId) = none) :
    (upsertVideo store v cid).1 = store ++ [applyUpsert none v cid] := by
  unfold upsertVideo
  simp [hf]

lemma map_id_map_update (l : Store) (f : DBVideo → DBVideo)
    (hf : ∀ x, (f x).video_id = x.video_id) :
    (l.map f).map (fun r => r.video_id) = l.map (fun r => r.video_id) := by
  induction l with
  | nil => rfl
  | cons a t ih => simp [hf a, ih]

lemma upsertVideo_map_id_nodup {store : Store} {v : VideoInfo} {cid : String}
    (hn : (store.map (fun r => r.video_id)).Nodup) :
    (((upsertVideo store v cid).1).map (fun r => r.video_id)).Nodup := by
  cases hf : store.find? (fun x => x.video_id = v.videoId) with
  | none =>
    rw [upsertVideo_fst_none hf, List.map_append, List.nodup_append]
    refine ⟨hn, by simp, ?_⟩
    intro a ha hb
    rcases List.mem_map.1 ha with ⟨e, he, rfl⟩
    have hb' : e.video_id = (applyUpsert none v cid).video_id := by simpa using hb
    have hev : e.video_id = v.videoId := by
      rw [hb']; rfl
    have := List.find?_eq_none.1 hf e he
    simp at this
    exact this hev
  | some ex =>
    have hex : ex.video_id = v.videoId := by simpa using List.find?_some hf
    rw [upsertVideo_fst_some hf]
    rw [map_id_map_update]
    · exact hn
    · intro x
      by_cases hc : x.video_id = v.videoId
      · rw [if_pos hc]
        show ex.video_id = x.video_id
        rw [hex, hc]
      · rw [if_neg hc]

lemma foldl_feedStep_fst_nodup (cid : String) (sids : List String) :
    ∀ (videos : List VideoInfo) (acc : Store × List EventType × List VideoInfo),
      (acc.1.map (fun r => r.video_id)).Nodup →
      (((videos.foldl (feedStep cid sids) acc).1).map (fun r => r.video_id)).Nodup
  | [], _, h => h
  | w :: t, acc, h => by
    apply foldl_feedStep_fst_nodup cid sids t
    unfold feedStep
    by_cases hg : (passesVideoFilters sids w && decide (w.type = VideoType.video)) = true
    · rw [if_pos hg]
      exact upsertVideo_map_id_nodup h
    · rw [if_neg hg]
      exact h

lemma nodup_ids_filter {l : Store} (p : DBVideo → Bool)
    (h : (l.map (fun r => r.video_id)).Nodup) :
    ((l.filter p).map (fun r => r.video_id)).Nodup :=
  h.sublist ((l.filter_sublist).map (fun r => r.video_id))

lemma length_filter_le_one_of_ids {l : Store} {p : DBVideo → Bool} {c : String}
    (hn : (l.map (fun r => r.video_id)).Nodup)
    (h : ∀ r ∈ l, p r = true → r.video_id = c) :
    (l.filter p).length ≤ 1 := by
  induction l with
  | nil => simp
  | cons a t ih =>
    rw [List.map_cons, List.nodup_cons] at hn
    obtain ⟨hna, hnt⟩ := hn
    by_cases hp : p a = true
    · rw [List.filter_cons_of_pos hp]
      have hnil : t.filter p = [] := by
        rw [List.filter_eq_nil_iff]
        intro b hb hpb
        have hbc : b.video_id = c := h b (List.mem_cons_of_mem _ hb) hpb
        have hac : a.video_id = c := h a (List.mem_cons_self _ _) hp
        exact hna (by rw [hac, ← hbc]; exact List.mem_map.2 ⟨b, hb, rfl⟩)
      simp [hnil]
    · rw [List.filter_cons_of_neg hp]
      exact ih hnt (fun r hr hpr => h r (List.mem_cons_of_mem _ hr) hpr)

/-- C1: after one complete `checkChannel` cycle — live-probe upsert (when
present), filtered feed upserts, then `cleanupEndedLives` — every stored item
of the channel that is still marked live carries the probe result's
identifier (so none remains when the probe returned null), and, provided the
store's identifiers were unique, at most one stored item of the channel has
`is_live = 1`. -/
theorem checkChannel_at_most_one_live (store : Store) (cid : String)
    (videos : List VideoInfo) (liveNow : Option VideoInfo)
    (hn : (store.map (fun r => r.video_id)).Nodup) :
    (∀ r ∈ checkChannelStore store cid videos liveNow, r.is_live = true →
        r.channel_id = cid → ∃ l, liveNow = some l ∧ r.video_id = l.videoId) ∧
    ((checkChannelStore store cid videos liveNow).filter
        (fun r => r.is_live && r.channel_id = cid)).length ≤ 1 := by
  have hforall : ∀ r ∈ checkChannelStore store cid videos liveNow, r.is_live = true →
      r.channel_id = cid → ∃ l, liveNow = some l ∧ r.video_id = l.videoId := by
    intro r hr hl hc
    unfold checkChannelStore cleanupEndedLives at hr
    rcases List.mem_filter.1 hr with ⟨_, hcond⟩
    cases liveNow with
    | none => simp [hl, hc] at hcond
    | some l =>
      refine ⟨l, rfl, ?_⟩
      simp [hl, hc] at hcond
      exact hcond
  refine ⟨hforall, ?_⟩
  obtain ⟨s1, hs1def, hs1⟩ : ∃ s1 : Store,
      checkChannelStore store cid videos liveNow
        = cleanupEndedLives ((processFeedVideos s1 cid videos).1) cid liveNow ∧
      (s1.map (fun r => r.video_id)).Nodup := by
    cases liveNow with
    | none => exact ⟨store, rfl, hn⟩
    | some l => exact ⟨(upsertVideo store l cid).1, rfl, upsertVideo_map_id_nodup hn⟩
  have hs2 : (((processFeedVideos s1 cid videos).1).map (fun r => r.video_id)).Nodup := by
    unfold processFeedVideos
    exact foldl_feedStep_fst_nodup cid _ videos _ hs1
  have hres : ((checkChannelStore store cid videos liveNow).map
      (fun r => r.video_id)).Nodup := by
    rw [hs1def]
    unfold cleanupEndedLives
    exact nodup_ids_filter _ hs2
  cases liveNow with
  | none =>
    apply length_filter_le_one_of_ids (c := "") hres
    intro r hr hp
    rw [Bool.and_eq_true] at hp
    have hc : r.channel_id = cid := by simpa using hp.2
    rcases hforall r hr hp.1 hc with ⟨l, hl, _⟩
    cases hl
  | some l =>
    apply length_filter_le_one_of_ids (c := l.videoId) hres
    intro r hr hp
    rw [Bool.and_eq_true] at hp
    have hc : r.channel_id = cid := by simpa using hp.2
    rcases hforall r hr hp.1 hc with ⟨l', hl', hid⟩
    cases hl'
    exact hid

/-- C1 witness: a store holding two live rows of channel `c` is repaired by
one cycle whose probe reports a third live item — at most one live row of the
channel remains. -/
theorem checkChannel_at_most_one_live_witness :
    ((checkChannelStore w1store "c" [] (some w1live)).filter
        (fun r => r.is_live && r.channel_id = "c")).length ≤ 1 :=
  (checkChannel_at_most_one_live w1store "c" [] (some w1live) (by decide)).2

end RssApp
